import Mathlib

/-!
A shallow embedding of `src/nova/cells/manager.py` (class `CellsManager`):
per-cell response envelopes and their unwrapping, the broadcast
aggregation loops (`service_get_all`, `task_log_get_all`,
`compute_node_get_all`, `compute_node_stats`), the targeted operations
(`run_compute_api_method`, `proxy_rpc_to_manager`,
`service_get_by_compute_host`, `compute_node_get`), and the periodic
reconciliation task `_heal_instances` with its once-per-tick refill
cursor.

External collaborators (the message runner, the record store, the
topology store) are injected as function parameters so every manager
method becomes a pure function of its inputs.  Helpers from
`nova/cells/utils.py`, which is not part of the source tree, are
modelled from the spec and marked as such in their doc comments.
-/

namespace Nova

/-- A captured remote-side error, opaque to `manager.py`. -/
structure Failure where
  msg : String
deriving DecidableEq, Repr

/-- The outcome carried by one cell's response envelope: a value, or a
failure captured at receipt and raised only on unwrap. -/
inductive Outcome (α : Type) where
  | ok (v : α)
  | err (f : Failure)
deriving DecidableEq, Repr

/-- A per-cell response envelope (`messaging.Response`): the responding
cell's name plus the deferred outcome.  `manager.py` only reads
`cell_name` and calls `value_or_raise()`. -/
structure Response (α : Type) where
  cell_name : String
  outcome : Outcome α
deriving DecidableEq, Repr

/-- `Response.value_or_raise()`: return the value, or raise the captured
failure (raising is modelled as `Except.error`). -/
def value_or_raise {α : Type} : Response α → Except Failure α
  | ⟨_, Outcome.ok v⟩ => Except.ok v
  | ⟨_, Outcome.err f⟩ => Except.error f

/-- Modelled from the spec: `cells_utils.split_cell_and_item` is not in
the source tree.  Per the spec's addressing section, a literal has the
form `cellpath!item`; the part before the first separator is the cell
name (the empty string meaning the local cell) and the rest is the
item. -/
def split_cell_and_item (s : String) : String × String :=
  match s.splitOn "!" with
  | [] => ("", s)
  | [x] => ("", x)
  | x :: rest => (x, String.intercalate "!" rest)

/-- Modelled from the spec: the `cells_utils.add_cell_to_*` helpers are
not in the source tree.  Per the spec they annotate a result item with
its source cell, modelled as tagging the item with the cell name. -/
def add_cell_to_item {α : Type} (cell : String) (item : α) : String × α :=
  (cell, item)

/-- `CellsManager.run_compute_api_method` with the message runner
injected (`runner cell_name method_info call` is the envelope the
runner would return): the reply is unwrapped only when `call` is true;
a cast returns no result. -/
def run_compute_api_method {α : Type}
    (runner : String → String → Bool → Response α)
    (cell_name method_info : String) (call : Bool) :
    Option (Except Failure α) :=
  let response := runner cell_name method_info call
  if call then some (value_or_raise response) else none

/-- `CellsManager.proxy_rpc_to_manager` with the message runner
injected (`runner cell_name host_name topic rpc_message call timeout`):
strips the compute-topic prefix from the topic, splits the remainder
into cell and host, forwards everything to the runner, and returns
`response.value_or_raise()` on the reply. -/
def proxy_rpc_to_manager {α : Type}
    (runner : String → String → String → String → Bool → Option Nat → Response α)
    (compute_topic topic rpc_message : String) (call : Bool)
    (timeout : Option Nat) : Except Failure α :=
  let cell_and_host := topic.drop (compute_topic.length + 1)
  let p := split_cell_and_item cell_and_host
  value_or_raise (runner p.1 p.2 topic rpc_message call timeout)

/-- `CellsManager.service_get_by_compute_host` with the message runner
injected: splits the host name into cell and host, unwraps the single
reply and tags the service with the *responding envelope's* cell
name. -/
def service_get_by_compute_host {α : Type}
    (runner : String → String → Response α) (host_name : String) :
    Except Failure (String × α) :=
  let p := split_cell_and_item host_name
  let response := runner p.1 p.2
  match value_or_raise response with
  | Except.error f => Except.error f
  | Except.ok service => Except.ok (add_cell_to_item response.cell_name service)

/-- `CellsManager.compute_node_get` with the message runner injected:
splits the compute id into cell and item, unwraps the single reply and
tags the node with the cell name *parsed from the compute id*. -/
def compute_node_get {α : Type}
    (runner : String → String → Response α) (compute_id : String) :
    Except Failure (String × α) :=
  let p := split_cell_and_item compute_id
  let response := runner p.1 p.2
  match value_or_raise response with
  | Except.error f => Except.error f
  | Except.ok node => Except.ok (add_cell_to_item p.1 node)

/-- The response loop of `CellsManager.service_get_all`: one envelope
per cell, each carrying a list of services; every envelope is unwrapped
in order and each service is tagged with the envelope's cell name. -/
def service_get_all_loop {α : Type} :
    List (Response (List α)) → List (String × α) →
    Except Failure (List (String × α))
  | [], ret_services => Except.ok ret_services
  | response :: rest, ret_services =>
    match value_or_raise response with
    | Except.error f => Except.error f
    | Except.ok services =>
        service_get_all_loop rest
          (ret_services ++ services.map (add_cell_to_item response.cell_name))

/-- `CellsManager.service_get_all` with the per-cell responses
injected. -/
def service_get_all {α : Type} (responses : List (Response (List α))) :
    Except Failure (List (String × α)) :=
  service_get_all_loop responses []

/-- The response loop of `CellsManager.task_log_get_all` (the host/cell
splitting preamble only selects which runner call produces the
responses, which are injected here). -/
def task_log_get_all_loop {α : Type} :
    List (Response (List α)) → List (String × α) →
    Except Failure (List (String × α))
  | [], ret_task_logs => Except.ok ret_task_logs
  | response :: rest, ret_task_logs =>
    match value_or_raise response with
    | Except.error f => Except.error f
    | Except.ok task_logs =>
        task_log_get_all_loop rest
          (ret_task_logs ++ task_logs.map (add_cell_to_item response.cell_name))

/-- `CellsManager.task_log_get_all` with the per-cell responses
injected. -/
def task_log_get_all {α : Type} (responses : List (Response (List α))) :
    Except Failure (List (String × α)) :=
  task_log_get_all_loop responses []

/-- The response loop of `CellsManager.compute_node_get_all`. -/
def compute_node_get_all_loop {α : Type} :
    List (Response (List α)) → List (String × α) →
    Except Failure (List (String × α))
  | [], ret_nodes => Except.ok ret_nodes
  | response :: rest, ret_nodes =>
    match value_or_raise response with
    | Except.error f => Except.error f
    | Except.ok nodes =>
        compute_node_get_all_loop rest
          (ret_nodes ++ nodes.map (add_cell_to_item response.cell_name))

/-- `CellsManager.compute_node_get_all` with the per-cell responses
injected. -/
def compute_node_get_all {α : Type} (responses : List (Response (List α))) :
    Except Failure (List (String × α)) :=
  compute_node_get_all_loop responses []

/-- `totals.setdefault(key, 0); totals[key] += val` on the running
totals, modelled on an association list with unique keys (the first
matching entry is bumped; a fresh key is appended). -/
def update_total (totals : List (String × Int)) (key : String) (val : Int) :
    List (String × Int) :=
  match totals with
  | [] => [(key, val)]
  | (k, v) :: rest =>
      if k = key then (k, v + val) :: rest
      else (k, v) :: update_total rest key val

/-- The inner `for key, val in data.iteritems()` loop of
`compute_node_stats`: fold one cell's numeric map into the totals. -/
def apply_stats : List (String × Int) → List (String × Int) →
    List (String × Int)
  | totals, [] => totals
  | totals, (key, val) :: rest => apply_stats (update_total totals key val) rest

/-- The response loop of `CellsManager.compute_node_stats`: every
envelope is unwrapped in order and its numeric map is folded into the
running totals. -/
def compute_node_stats_loop :
    List (Response (List (String × Int))) → List (String × Int) →
    Except Failure (List (String × Int))
  | [], totals => Except.ok totals
  | response :: rest, totals =>
    match value_or_raise response with
    | Except.error f => Except.error f
    | Except.ok data => compute_node_stats_loop rest (apply_stats totals data)

/-- `CellsManager.compute_node_stats` with the per-cell responses
injected: totals start empty. -/
def compute_node_stats (responses : List (Response (List (String × Int)))) :
    Except Failure (List (String × Int)) :=
  compute_node_stats_loop responses []

/-- Reading a key out of the totals; a key never inserted reads as
zero. -/
def lookup_total : List (String × Int) → String → Int
  | [], _ => 0
  | (k, v) :: rest, key => if k = key then v else lookup_total rest key

/-- Spec-side definition for comparison: the sum of one cell's map at a
given key, where an absent key contributes zero. -/
def entry_sum : List (String × Int) → String → Int
  | [], _ => 0
  | (k, v) :: rest, key => (if k = key then v else 0) + entry_sum rest key

/-- Spec-side definition for comparison: the order-preserving,
cell-tagged concatenation of per-cell result lists. -/
def tagged_concat {α : Type} : List (String × List α) → List (String × α)
  | [] => []
  | (c, xs) :: rest => xs.map (add_cell_to_item c) ++ tagged_concat rest

/-- A `ResourceRecord` as `_heal_instances` reads it back from the
record store (`self.db.instance_get_by_uuid`): only `deleted` is
inspected by `_sync_instance`. -/
structure InstanceRecord where
  uuid : String
  deleted : Bool
deriving DecidableEq, Repr

/-- An upward emission made by the reconciliation tick:
`instance_update_at_top` or `instance_destroy_at_top` (each a broadcast
to the parent cells via the message runner). -/
inductive Emission where
  | update_at_top (inst : InstanceRecord)
  | destroy_at_top (inst : InstanceRecord)
deriving DecidableEq, Repr

/-- `CellsManager._sync_instance`: a deleted record is destroyed at the
top, any other record is updated at the top. -/
def sync_instance (inst : InstanceRecord) : Emission :=
  if inst.deleted then Emission.destroy_at_top inst
  else Emission.update_at_top inst

/-- The environment of one `_heal_instances` tick: the configuration
values read from `CONF.cells`, the current time, and the two external
collaborators (`cells_utils.get_instances_to_sync`, keyed by the
`updated_since` argument it is given, and
`self.db.instance_get_by_uuid`, where `none` models
`InstanceNotFound`).  `get_instances_to_sync` is always called with
`shuffle=True` and `uuids_only=True` in the source, so only the
`updated_since` argument is modelled. -/
structure HealEnv where
  parent_cells : List String
  instance_update_num_instances : Int
  instance_updated_at_threshold : Int
  utcnow : Int
  get_instances_to_sync : Option Int → List String
  instance_get_by_uuid : String → Option InstanceRecord

/-- The mutable state a tick threads: the pending uuid iterator
`self.instances_to_heal` (as the list of uuids it has yet to yield),
the per-tick `info['updated_list']` flag, and — for the record — the
`updated_since` argument of every `get_instances_to_sync` call made so
far this tick. -/
structure HealState where
  instances_to_heal : List String
  updated_list : Bool
  sync_args : List (Option Int)
deriving DecidableEq, Repr

/-- The `updated_since` value `_next_instance` computes before a
refill: `utcnow() - timedelta(seconds=threshold)` when the configured
threshold is positive, otherwise `None`. -/
def updated_since_arg (env : HealEnv) : Option Int :=
  if env.instance_updated_at_threshold > 0 then
    some (env.utcnow - env.instance_updated_at_threshold)
  else none

/-- The possible ways one pass over the pending uuid list can end. -/
inductive ScanResult where
  | emitted (e : Emission) (rest : List String)
  | end_tick (rest : List String)
  | exhausted
deriving DecidableEq, Repr

/-- One pass of the `while True` body over the pending uuids: pop the
next uuid; a falsy uuid makes the whole tick return (`end_tick`); an
`InstanceNotFound` lookup is skipped (`continue`); a found record is
synced (`emitted`); running off the end of the list raises
`StopIteration` inside `_next_instance` (`exhausted`). -/
def scan_pending (env : HealEnv) : List String → ScanResult
  | [] => ScanResult.exhausted
  | u :: rest =>
    if u = "" then ScanResult.end_tick rest
    else
      match env.instance_get_by_uuid u with
      | none => scan_pending env rest
      | some inst => ScanResult.emitted (sync_instance inst) rest

/-- One iteration of the budget loop (`for i in xrange(...)`): drain
the pending list; on exhaustion, refill once via
`get_instances_to_sync` if `info['updated_list']` is still false
(recording the `updated_since` argument) and drain the refilled list;
a second exhaustion, or a falsy uuid, ends the tick (`none`). -/
def drain_slot (env : HealEnv) (s : HealState) : Option Emission × HealState :=
  match scan_pending env s.instances_to_heal with
  | ScanResult.emitted e rest => (some e, { s with instances_to_heal := rest })
  | ScanResult.end_tick rest => (none, { s with instances_to_heal := rest })
  | ScanResult.exhausted =>
    if s.updated_list then (none, { s with instances_to_heal := [] })
    else
      let arg := updated_since_arg env
      let new_list := env.get_instances_to_sync arg
      let s' : HealState :=
        { instances_to_heal := new_list, updated_list := true,
          sync_args := s.sync_args ++ [arg] }
      match scan_pending env new_list with
      | ScanResult.emitted e rest => (some e, { s' with instances_to_heal := rest })
      | ScanResult.end_tick rest => (none, { s' with instances_to_heal := rest })
      | ScanResult.exhausted => (none, { s' with instances_to_heal := [] })

/-- The budget loop of `_heal_instances`: up to `n` slots; a slot that
ends the tick returns immediately with the emissions so far. -/
def heal_tick (env : HealEnv) :
    Nat → HealState → List Emission → List Emission × HealState
  | 0, s, acc => (acc, s)
  | n + 1, s, acc =>
    match drain_slot env s with
    | (none, s') => (acc, s')
    | (some e, s') => heal_tick env n s' (acc ++ [e])

/-- `CellsManager._heal_instances`: returns immediately when there are
no parent cells; otherwise runs the budget loop with a fresh
`info['updated_list'] = False` flag over the pending uuids carried over
from the previous tick.  Returns the upward emissions in order together
with the final cursor state. -/
def heal_instances (env : HealEnv) (instances_to_heal : List String) :
    List Emission × HealState :=
  let s0 : HealState :=
    { instances_to_heal := instances_to_heal, updated_list := false,
      sync_args := [] }
  if env.parent_cells = [] then ([], s0)
  else heal_tick env env.instance_update_num_instances.toNat s0 []

/-! ### Lemmas about the list-aggregating response loops -/

theorem service_get_all_loop_ok {α : Type} (cells : List (String × List α))
    (acc : List (String × α)) :
    service_get_all_loop (cells.map fun p => ⟨p.1, Outcome.ok p.2⟩) acc
      = Except.ok (acc ++ tagged_concat cells) := by
  induction cells generalizing acc with
  | nil => simp [service_get_all_loop, tagged_concat]
  | cons c rest ih =>
      simp [service_get_all_loop, value_or_raise, tagged_concat, ih,
        List.append_assoc]

theorem task_log_get_all_loop_ok {α : Type} (cells : List (String × List α))
    (acc : List (String × α)) :
    task_log_get_all_loop (cells.map fun p => ⟨p.1, Outcome.ok p.2⟩) acc
      = Except.ok (acc ++ tagged_concat cells) := by
  induction cells generalizing acc with
  | nil => simp [task_log_get_all_loop, tagged_concat]
  | cons c rest ih =>
      simp [task_log_get_all_loop, value_or_raise, tagged_concat, ih,
        List.append_assoc]

theorem compute_node_get_all_loop_ok {α : Type} (cells : List (String × List α))
    (acc : List (String × α)) :
    compute_node_get_all_loop (cells.map fun p => ⟨p.1, Outcome.ok p.2⟩) acc
      = Except.ok (acc ++ tagged_concat cells) := by
  induction cells generalizing acc with
  | nil => simp [compute_node_get_all_loop, tagged_concat]
  | cons c rest ih =>
      simp [compute_node_get_all_loop, value_or_raise, tagged_concat, ih,
        List.append_assoc]

theorem service_get_all_loop_err {α : Type} :
    ∀ (pre : List (Response (List α))),
      (∀ r ∈ pre, ∃ vs, r.outcome = Outcome.ok vs) →
      ∀ (c : String) (f : Failure) (post : List (Response (List α)))
        (acc : List (String × α)),
        service_get_all_loop (pre ++ ⟨c, Outcome.err f⟩ :: post) acc
          = Except.error f := by
  intro pre
  induction pre with
  | nil =>
      intro _ c f post acc
      simp [service_get_all_loop, value_or_raise]
  | cons r pre' ih =>
      intro h c f post acc
      obtain ⟨vs, hvs⟩ := h r (List.mem_cons_self r pre')
      obtain ⟨cn, o⟩ := r
      simp only at hvs
      subst hvs
      simp only [List.cons_append, service_get_all_loop, value_or_raise]
      exact ih (fun r' hr' => h r' (List.mem_cons_of_mem _ hr')) c f post _

theorem task_log_get_all_loop_err {α : Type} :
    ∀ (pre : List (Response (List α))),
      (∀ r ∈ pre, ∃ vs, r.outcome = Outcome.ok vs) →
      ∀ (c : String) (f : Failure) (post : List (Response (List α)))
        (acc : List (String × α)),
        task_log_get_all_loop (pre ++ ⟨c, Outcome.err f⟩ :: post) acc
          = Except.error f := by
  intro pre
  induction pre with
  | nil =>
      intro _ c f post acc
      simp [task_log_get_all_loop, value_or_raise]
  | cons r pre' ih =>
      intro h c f post acc
      obtain ⟨vs, hvs⟩ := h r (List.mem_cons_self r pre')
      obtain ⟨cn, o⟩ := r
      simp only at hvs
      subst hvs
      simp only [List.cons_append, task_log_get_all_loop, value_or_raise]
      exact ih (fun r' hr' => h r' (List.mem_cons_of_mem _ hr')) c f post _

theorem compute_node_get_all_loop_err {α : Type} :
    ∀ (pre : List (Response (List α))),
      (∀ r ∈ pre, ∃ vs, r.outcome = Outcome.ok vs) →
      ∀ (c : String) (f : Failure) (post : List (Response (List α)))
        (acc : List (String × α)),
        compute_node_get_all_loop (pre ++ ⟨c, Outcome.err f⟩ :: post) acc
          = Except.error f := by
  intro pre
  induction pre with
  | nil =>
      intro _ c f post acc
      simp [compute_node_get_all_loop, value_or_raise]
  | cons r pre' ih =>
      intro h c f post acc
      obtain ⟨vs, hvs⟩ := h r (List.mem_cons_self r pre')
      obtain ⟨cn, o⟩ := r
      simp only at hvs
      subst hvs
      simp only [List.cons_append, compute_node_get_all_loop, value_or_raise]
      exact ih (fun r' hr' => h r' (List.mem_cons_of_mem _ hr')) c f post _

/-! ### Lemmas about the numeric-map summation -/

theorem lookup_update (totals : List (String × Int)) (key k : String)
    (val : Int) :
    lookup_total (update_total totals key val) k
      = lookup_total totals k + (if key = k then val else 0) := by
  induction totals with
  | nil => simp [update_total, lookup_total]
  | cons p rest ih =>
      obtain ⟨k0, v0⟩ := p
      by_cases hk0 : k0 = key
      · subst hk0
        by_cases hk : k0 = k
        · subst hk; simp [update_total, lookup_total]
        · simp [update_total, lookup_total, hk]
      · by_cases hk : k0 = k
        · subst hk
          have : ¬ key = k0 := fun h => hk0 h.symm
          simp [update_total, lookup_total, hk0, this]
        · simp [update_total, lookup_total, hk0, hk, ih]

theorem lookup_apply_stats (data : List (String × Int)) :
    ∀ (totals : List (String × Int)) (k : String),
      lookup_total (apply_stats totals data) k
        = lookup_total totals k + entry_sum data k := by
  induction data with
  | nil => intro totals k; simp [apply_stats, entry_sum]
  | cons p rest ih =>
      intro totals k
      obtain ⟨key, val⟩ := p
      simp only [apply_stats, entry_sum, ih, lookup_update]
      ring

theorem compute_node_stats_loop_ok
    (cells : List (String × List (String × Int))) :
    ∀ totals,
      compute_node_stats_loop (cells.map fun p => ⟨p.1, Outcome.ok p.2⟩) totals
        = Except.ok (List.foldl apply_stats totals (cells.map Prod.snd)) := by
  induction cells with
  | nil => intro totals; simp [compute_node_stats_loop]
  | cons c rest ih =>
      intro totals
      simp [compute_node_stats_loop, value_or_raise, ih]

theorem lookup_foldl_apply_stats (ds : List (List (String × Int))) :
    ∀ (totals : List (String × Int)) (k : String),
      lookup_total (List.foldl apply_stats totals ds) k
        = lookup_total totals k + (ds.map fun d => entry_sum d k).sum := by
  induction ds with
  | nil => intro totals k; simp
  | cons d rest ih =>
      intro totals k
      simp only [List.foldl_cons, List.map_cons, List.sum_cons, ih,
        lookup_apply_stats]
      ring

/-! ### Lemmas about the reconciliation tick -/

theorem heal_tick_length (env : HealEnv) :
    ∀ (n : Nat) (s : HealState) (acc : List Emission),
      ((heal_tick env n s acc).1).length ≤ acc.length + n := by
  intro n
  induction n with
  | zero => intro s acc; simp [heal_tick]
  | succ n ih =>
      intro s acc
      rcases h : drain_slot env s with ⟨r, s'⟩
      cases r with
      | none => simp [heal_tick, h]
      | some e =>
          have := ih s' (acc ++ [e])
          simp only [heal_tick, h]
          simp at this
          omega

/-- The quantity `len(sync_args) + (updated_list ? 0 : 1)`: it is kept
exactly constant by every drain slot, so a tick that starts with no
refill recorded can record at most one. -/
def refill_potential (s : HealState) : Nat :=
  s.sync_args.length + (if s.updated_list then 0 else 1)

theorem drain_slot_potential (env : HealEnv) (s : HealState) :
    refill_potential (drain_slot env s).2 = refill_potential s := by
  unfold drain_slot
  split
  · rfl
  · rfl
  · dsimp only
    split
    · rename_i hu
      simp [refill_potential, hu]
    · rename_i hu
      split <;> simp [refill_potential, hu]

theorem heal_tick_potential (env : HealEnv) :
    ∀ (n : Nat) (s : HealState) (acc : List Emission),
      refill_potential (heal_tick env n s acc).2 = refill_potential s := by
  intro n
  induction n with
  | zero => intro s acc; simp [heal_tick]
  | succ n ih =>
      intro s acc
      rcases h : drain_slot env s with ⟨r, s'⟩
      have hpot : refill_potential s' = refill_potential s := by
        have := drain_slot_potential env s
        rw [h] at this
        exact this
      cases r with
      | none => simp [heal_tick, h, hpot]
      | some e => simp [heal_tick, h, ih s' (acc ++ [e]), hpot]

theorem drain_slot_args (env : HealEnv) (s : HealState)
    (h : ∀ a ∈ s.sync_args, a = updated_since_arg env) :
    ∀ a ∈ (drain_slot env s).2.sync_args, a = updated_since_arg env := by
  unfold drain_slot
  split
  · exact h
  · exact h
  · dsimp only
    split
    · exact h
    · split <;>
      · intro a ha
        simp at ha
        rcases ha with ha | ha
        · exact h a ha
        · exact ha

theorem heal_tick_args (env : HealEnv) :
    ∀ (n : Nat) (s : HealState) (acc : List Emission),
      (∀ a ∈ s.sync_args, a = updated_since_arg env) →
      ∀ a ∈ (heal_tick env n s acc).2.sync_args, a = updated_since_arg env := by
  intro n
  induction n with
  | zero => intro s acc h; simpa [heal_tick] using h
  | succ n ih =>
      intro s acc h
      rcases hd : drain_slot env s with ⟨r, s'⟩
      have hargs : ∀ a ∈ s'.sync_args, a = updated_since_arg env := by
        have := drain_slot_args env s h
        rw [hd] at this
        exact this
      cases r with
      | none => simpa [heal_tick, hd] using hargs
      | some e => simpa [heal_tick, hd] using ih s' (acc ++ [e]) hargs

theorem scan_pending_emitted (env : HealEnv) :
    ∀ (l : List String) (e : Emission) (rest : List String),
      scan_pending env l = ScanResult.emitted e rest →
      ∃ u inst, env.instance_get_by_uuid u = some inst ∧
        e = sync_instance inst := by
  intro l
  induction l with
  | nil => intro e rest h; simp [scan_pending] at h
  | cons u tl ih =>
      intro e rest h
      by_cases hu : u = ""
      · simp [scan_pending, hu] at h
      · rcases hdb : env.instance_get_by_uuid u with _ | inst
        · rw [scan_pending, if_neg hu, hdb] at h
          exact ih e rest h
        · rw [scan_pending, if_neg hu, hdb] at h
          cases h
          exact ⟨u, inst, hdb, rfl⟩

theorem drain_slot_emitted (env : HealEnv) (s : HealState) (e : Emission)
    (s' : HealState) (h : drain_slot env s = (some e, s')) :
    ∃ u inst, env.instance_get_by_uuid u = some inst ∧
      e = sync_instance inst := by
  unfold drain_slot at h
  split at h
  · rename_i e0 r hscan
    cases h
    exact scan_pending_emitted env _ _ _ hscan
  · cases h
  · dsimp only at h
    split at h
    · cases h
    · split at h
      · rename_i e0 r hscan2
        cases h
        exact scan_pending_emitted env _ _ _ hscan2
      · cases h
      · cases h

theorem heal_tick_mem (env : HealEnv) :
    ∀ (n : Nat) (s : HealState) (acc : List Emission) (e : Emission),
      e ∈ (heal_tick env n s acc).1 →
      e ∈ acc ∨ ∃ u inst, env.instance_get_by_uuid u = some inst ∧
        e = sync_instance inst := by
  intro n
  induction n with
  | zero => intro s acc e h; left; simpa [heal_tick] using h
  | succ n ih =>
      intro s acc e h
      rcases hd : drain_slot env s with ⟨r, s'⟩
      cases r with
      | none =>
          left
          simpa [heal_tick, hd] using h
      | some e0 =>
          simp only [heal_tick, hd] at h
          rcases ih s' (acc ++ [e0]) e h with hmem | hex
          · rcases List.mem_append.1 hmem with hmem | hmem
            · exact Or.inl hmem
            · right
              have : e = e0 := by simpa using hmem
              subst this
              exact drain_slot_emitted env s e s' hd
          · exact Or.inr hex

theorem scan_pending_skip (env : HealEnv) (u : String) (rest : List String)
    (hu : u ≠ "") (hdb : env.instance_get_by_uuid u = none) :
    scan_pending env (u :: rest) = scan_pending env rest := by
  simp [scan_pending, hu, hdb]

theorem drain_slot_skip (env : HealEnv) (u : String) (rest : List String)
    (b : Bool) (args : List (Option Int))
    (hu : u ≠ "") (hdb : env.instance_get_by_uuid u = none) :
    drain_slot env ⟨u :: rest, b, args⟩ = drain_slot env ⟨rest, b, args⟩ := by
  unfold drain_slot
  dsimp only
  rw [scan_pending_skip env u rest hu hdb]

/-! ### Concrete environments used by the witnesses -/

/-- No parent cells configured; the record store has a backlog. -/
def env_nop : HealEnv :=
  { parent_cells := [], instance_update_num_instances := 3,
    instance_updated_at_threshold := 0, utcnow := 0,
    get_instances_to_sync := fun _ => ["a", "b"],
    instance_get_by_uuid := fun _ => none }

/-- One parent, budget 2, threshold 7 at time 50; the record store is
empty, so the single refill yields nothing. -/
def env_refill_empty : HealEnv :=
  { parent_cells := ["parent"], instance_update_num_instances := 2,
    instance_updated_at_threshold := 7, utcnow := 50,
    get_instances_to_sync := fun _ => [],
    instance_get_by_uuid := fun _ => none }

/-- One parent; the record "a" exists and is deleted. -/
def env_destroy : HealEnv :=
  { parent_cells := ["parent"], instance_update_num_instances := 1,
    instance_updated_at_threshold := 0, utcnow := 0,
    get_instances_to_sync := fun _ => [],
    instance_get_by_uuid := fun u =>
      if u = "a" then some ⟨"a", true⟩ else none }

/-- One parent, threshold 5 at time 100; the refill argument should be
`some 95`. -/
def env_threshold : HealEnv :=
  { parent_cells := ["parent"], instance_update_num_instances := 1,
    instance_updated_at_threshold := 5, utcnow := 100,
    get_instances_to_sync := fun _ => [],
    instance_get_by_uuid := fun _ => none }

/-- One parent; only the record "b" exists (not deleted). -/
def env_skip : HealEnv :=
  { parent_cells := ["parent"], instance_update_num_instances := 1,
    instance_updated_at_threshold := 0, utcnow := 0,
    get_instances_to_sync := fun _ => ["b"],
    instance_get_by_uuid := fun u =>
      if u = "b" then some ⟨"b", false⟩ else none }

/-! ### The claims -/

/-- C1, counterexample to the claim as stated: `proxy_rpc_to_manager`
called with `call = false` is not fire-and-forget — it still unwraps
the reply envelope via `value_or_raise`, so a captured `Failure` is
raised even though the caller asked for cast semantics. -/
theorem proxy_rpc_cast_still_unwraps_cex :
    proxy_rpc_to_manager
        (fun _ _ _ _ _ _ => (⟨"cellB", Outcome.err ⟨"boom"⟩⟩ : Response Nat))
        "compute" "compute.child!host1" "msg" false none
      = Except.error ⟨"boom"⟩ := rfl

/-- C1 (amended): `proxy_rpc_to_manager` unconditionally unwraps the
reply via `Single` semantics — for either value of `call` it returns
the envelope's value or raises its captured `Failure` — whereas
`run_compute_api_method` honors the call-vs-cast choice and returns no
result when `call` is false. -/
theorem proxy_rpc_unwraps_regardless_of_call {α : Type}
    (compute_topic topic rpc_message : String) (call : Bool)
    (timeout : Option Nat) (e₁ e₂ : Response α) (f : Failure) (v : α)
    (h₁ : e₁.outcome = Outcome.err f) (h₂ : e₂.outcome = Outcome.ok v) :
    proxy_rpc_to_manager (fun _ _ _ _ _ _ => e₁)
        compute_topic topic rpc_message call timeout = Except.error f
    ∧ proxy_rpc_to_manager (fun _ _ _ _ _ _ => e₂)
        compute_topic topic rpc_message call timeout = Except.ok v
    ∧ run_compute_api_method (fun _ _ _ => e₁) "cell" "method" false = none := by
  obtain ⟨c₁, o₁⟩ := e₁
  obtain ⟨c₂, o₂⟩ := e₂
  simp only at h₁ h₂
  subst h₁
  subst h₂
  exact ⟨rfl, rfl, rfl⟩

/-- C1 witness: the amended claim at a concrete failed envelope and a
concrete successful envelope, both with `call = false`. -/
theorem proxy_rpc_unwraps_regardless_of_call_witness :
    proxy_rpc_to_manager
        (fun _ _ _ _ _ _ => (⟨"cellB", Outcome.err ⟨"boom"⟩⟩ : Response Nat))
        "compute" "compute.child!host1" "msg" false none = Except.error ⟨"boom"⟩
    ∧ proxy_rpc_to_manager
        (fun _ _ _ _ _ _ => (⟨"cellB", Outcome.ok 7⟩ : Response Nat))
        "compute" "compute.child!host1" "msg" false none = Except.ok 7
    ∧ run_compute_api_method
        (fun _ _ _ => (⟨"cellB", Outcome.err ⟨"boom"⟩⟩ : Response Nat))
        "cell" "method" false = none :=
  proxy_rpc_unwraps_regardless_of_call "compute" "compute.child!host1" "msg"
    false none ⟨"cellB", Outcome.err ⟨"boom"⟩⟩ ⟨"cellB", Outcome.ok 7⟩
    ⟨"boom"⟩ 7 rfl rfl

/-- C2: a reconciliation tick emits at most
`instance_update_num_instances` upward syncs however large the backlog
is, and emits nothing at all when no parent cells are configured. -/
theorem heal_instances_budget_bound (env : HealEnv) (l : List String) :
    ((heal_instances env l).1).length
        ≤ env.instance_update_num_instances.toNat
    ∧ (env.parent_cells = [] → (heal_instances env l).1 = []) := by
  constructor
  · by_cases hp : env.parent_cells = []
    · simp [heal_instances, hp]
    · have h := heal_tick_length env env.instance_update_num_instances.toNat
        ⟨l, false, []⟩ []
      simpa [heal_instances, hp] using h
  · intro hp
    simp [heal_instances, hp]

/-- C2 witness: with no parents configured and a backlog of three
pending uuids, the tick emits nothing. -/
theorem heal_instances_budget_bound_witness :
    ((heal_instances env_nop ["a", "b", "c"]).1).length ≤ (3 : Int).toNat
    ∧ (heal_instances env_nop ["a", "b", "c"]).1 = [] :=
  ⟨(heal_instances_budget_bound env_nop ["a", "b", "c"]).1,
   (heal_instances_budget_bound env_nop ["a", "b", "c"]).2 rfl⟩

theorem sync_args_length_le_potential (s : HealState) :
    s.sync_args.length ≤ refill_potential s := by
  unfold refill_potential
  split <;> omega

/-- C3: a reconciliation tick calls `get_instances_to_sync` at most
once, however many items it drains or however often the iterator runs
dry; and when the pending list is empty and the single refill yields
nothing, the tick ends with no emissions and exactly that one recorded
record-store scan. -/
theorem heal_instances_single_refill (env : HealEnv) (l : List String) :
    ((heal_instances env l).2).sync_args.length ≤ 1
    ∧ (env.parent_cells ≠ [] → 0 < env.instance_update_num_instances →
        env.get_instances_to_sync (updated_since_arg env) = [] →
        heal_instances env [] = ([], ⟨[], true, [updated_since_arg env]⟩)) := by
  constructor
  · by_cases hp : env.parent_cells = []
    · simp [heal_instances, hp]
    · have hfin : refill_potential (heal_instances env l).2 = 1 := by
        simp only [heal_instances, if_neg hp]
        rw [heal_tick_potential]
        simp [refill_potential]
      have hle := sync_args_length_le_potential (heal_instances env l).2
      omega
  · intro hp hn hempty
    obtain ⟨m, hm⟩ : ∃ m, env.instance_update_num_instances.toNat = m + 1 :=
      ⟨env.instance_update_num_instances.toNat - 1, by omega⟩
    simp only [heal_instances, if_neg hp, hm]
    simp [heal_tick, drain_slot, scan_pending, hempty]

/-- C3 witness: one parent, empty pending list, empty record store —
one scan is recorded and the tick ends early with no emissions. -/
theorem heal_instances_single_refill_witness :
    ((heal_instances env_refill_empty []).2).sync_args.length ≤ 1
    ∧ heal_instances env_refill_empty []
        = ([], ⟨[], true, [updated_since_arg env_refill_empty]⟩) :=
  ⟨(heal_instances_single_refill env_refill_empty []).1,
   (heal_instances_single_refill env_refill_empty []).2 (by decide) (by decide)
     rfl⟩

/-- C4: for each of the three list-aggregating broadcast queries, if
the envelopes start with any number of successes followed by a
`Failure`, the whole call raises that first `Failure` and none of the
other cells' results are returned. -/
theorem concat_aggregation_fail_fast {α : Type}
    (pre post : List (Response (List α))) (c : String) (f : Failure)
    (hpre : ∀ r ∈ pre, ∃ vs, r.outcome = Outcome.ok vs) :
    service_get_all (pre ++ ⟨c, Outcome.err f⟩ :: post) = Except.error f
    ∧ task_log_get_all (pre ++ ⟨c, Outcome.err f⟩ :: post) = Except.error f
    ∧ compute_node_get_all (pre ++ ⟨c, Outcome.err f⟩ :: post)
        = Except.error f :=
  ⟨service_get_all_loop_err pre hpre c f post [],
   task_log_get_all_loop_err pre hpre c f post [],
   compute_node_get_all_loop_err pre hpre c f post []⟩

/-- C4 witness: cellA succeeds, cellB fails, cellC succeeds — the
aggregated call fails with cellB's failure. -/
theorem concat_aggregation_fail_fast_witness :
    service_get_all
        [⟨"cellA", Outcome.ok [1]⟩, ⟨"cellB", Outcome.err ⟨"boom"⟩⟩,
         ⟨"cellC", Outcome.ok [2]⟩]
      = Except.error ⟨"boom"⟩ := by
  have h := (concat_aggregation_fail_fast [⟨"cellA", Outcome.ok [1]⟩]
    [⟨"cellC", Outcome.ok [2]⟩] "cellB" ⟨"boom"⟩
    (by
      intro r hr
      rw [List.mem_singleton] at hr
      subst hr
      exact ⟨[1], rfl⟩)).1
  exact h

/-- C5: when every envelope succeeds, each list-aggregating broadcast
query returns the concatenation of the per-cell lists in envelope
order, each element tagged with the cell name of the envelope it came
from. -/
theorem concat_aggregation_all_ok {α : Type} (cells : List (String × List α)) :
    service_get_all (cells.map fun p => ⟨p.1, Outcome.ok p.2⟩)
      = Except.ok (tagged_concat cells)
    ∧ task_log_get_all (cells.map fun p => ⟨p.1, Outcome.ok p.2⟩)
      = Except.ok (tagged_concat cells)
    ∧ compute_node_get_all (cells.map fun p => ⟨p.1, Outcome.ok p.2⟩)
      = Except.ok (tagged_concat cells) := by
  refine ⟨?_, ?_, ?_⟩
  · simpa using service_get_all_loop_ok cells []
  · simpa using task_log_get_all_loop_ok cells []
  · simpa using compute_node_get_all_loop_ok cells []

/-- C6: when every envelope succeeds, `compute_node_stats` returns
totals whose value at any key is the sum over all cells of that cell's
entries at the key, a key absent from a cell's map contributing
zero. -/
theorem compute_node_stats_keywise_sum
    (cells : List (String × List (String × Int))) (k : String) :
    ∃ totals,
      compute_node_stats (cells.map fun p => ⟨p.1, Outcome.ok p.2⟩)
        = Except.ok totals
      ∧ lookup_total totals k = (cells.map fun p => entry_sum p.2 k).sum := by
  refine ⟨List.foldl apply_stats [] (cells.map Prod.snd),
    compute_node_stats_loop_ok cells [], ?_⟩
  rw [lookup_foldl_apply_stats]
  simp only [lookup_total, List.map_map, zero_add]
  rfl

/-- C7: every emission a reconciliation tick makes comes from a record
found in the record store, and it is a destroy-at-top exactly when the
record's deleted flag is set, an update-at-top otherwise. -/
theorem heal_emission_classification (env : HealEnv) (l : List String) :
    ∀ e ∈ (heal_instances env l).1,
      ∃ u inst, env.instance_get_by_uuid u = some inst ∧
        ((inst.deleted = true ∧ e = Emission.destroy_at_top inst) ∨
         (inst.deleted = false ∧ e = Emission.update_at_top inst)) := by
  intro e he
  by_cases hp : env.parent_cells = []
  · simp [heal_instances, hp] at he
  · simp only [heal_instances, if_neg hp] at he
    rcases heal_tick_mem env _ _ _ e he with hmem | ⟨u, inst, hdb, hsync⟩
    · simp at hmem
    · refine ⟨u, inst, hdb, ?_⟩
      rcases hdel : inst.deleted with _ | _
      · right
        exact ⟨rfl, by rw [hsync]; simp [sync_instance, hdel]⟩
      · left
        exact ⟨rfl, by rw [hsync]; simp [sync_instance, hdel]⟩

/-- C7 witness: a deleted record produces a destroy-at-top emission. -/
theorem heal_emission_classification_witness :
    ∃ u inst, env_destroy.instance_get_by_uuid u = some inst ∧
      ((inst.deleted = true ∧
          Emission.destroy_at_top ⟨"a", true⟩ = Emission.destroy_at_top inst) ∨
       (inst.deleted = false ∧
          Emission.destroy_at_top ⟨"a", true⟩ = Emission.update_at_top inst)) :=
  heal_emission_classification env_destroy ["a"]
    (Emission.destroy_at_top ⟨"a", true⟩) (by decide)

/-- C8: every `get_instances_to_sync` call a tick makes passes
`updated_since = utcnow - threshold` when the configured threshold is
positive, and passes no staleness filter (`none`) when the threshold is
zero. -/
theorem heal_refill_staleness_arg (env : HealEnv) (l : List String) :
    (0 < env.instance_updated_at_threshold →
      ∀ a ∈ ((heal_instances env l).2).sync_args,
        a = some (env.utcnow - env.instance_updated_at_threshold))
    ∧ (env.instance_updated_at_threshold = 0 →
      ∀ a ∈ ((heal_instances env l).2).sync_args, a = none) := by
  have hall : ∀ a ∈ ((heal_instances env l).2).sync_args,
      a = updated_since_arg env := by
    by_cases hp : env.parent_cells = []
    · simp [heal_instances, hp]
    · have h := heal_tick_args env env.instance_update_num_instances.toNat
        ⟨l, false, []⟩ [] (by simp)
      simpa [heal_instances, hp] using h
  constructor
  · intro ht a ha
    rw [hall a ha, updated_since_arg, if_pos ht]
  · intro ht a ha
    rw [hall a ha, updated_since_arg, if_neg (by omega)]

/-- C8 witness: threshold 5 at time 100 — the one refill of the tick
passes `updated_since = some 95`. -/
theorem heal_refill_staleness_arg_witness :
    some 95
      = some (env_threshold.utcnow
          - env_threshold.instance_updated_at_threshold) :=
  (heal_refill_staleness_arg env_threshold []).1 (by decide) (some 95)
    (by decide)

/-- C9: a pending uuid whose record lookup reports not-found is benign:
with at least one budget slot, the tick behaves exactly as if that uuid
had not been in the backlog — it continues with the next candidate in
the same slot and the missing record produces no emission. -/
theorem heal_not_found_benign (env : HealEnv) (u : String)
    (rest : List String) (hp : env.parent_cells ≠ [])
    (hn : 0 < env.instance_update_num_instances) (hu : u ≠ "")
    (hdb : env.instance_get_by_uuid u = none) :
    heal_instances env (u :: rest) = heal_instances env rest := by
  obtain ⟨m, hm⟩ : ∃ m, env.instance_update_num_instances.toNat = m + 1 :=
    ⟨env.instance_update_num_instances.toNat - 1, by omega⟩
  have hdrain : drain_slot env ⟨u :: rest, false, []⟩
      = drain_slot env ⟨rest, false, []⟩ :=
    drain_slot_skip env u rest false [] hu hdb
  simp only [heal_instances, if_neg hp, hm, heal_tick, hdrain]

/-- C9 witness: the uuid "missing" has no record; the tick over
`["missing", "b"]` equals the tick over `["b"]` (which syncs "b"). -/
theorem heal_not_found_benign_witness :
    heal_instances env_skip ["missing", "b"] = heal_instances env_skip ["b"] :=
  heal_not_found_benign env_skip "missing" ["b"] (by decide) (by decide)
    (by decide) (by decide)

/-- C10: `compute_node_get` tags the returned node with the cell name
parsed from the caller-supplied compute id — independent of the
responding envelope's cell name — while `service_get_by_compute_host`
tags its result with the responding envelope's cell name. -/
theorem compute_node_get_tags_parsed_cell {α : Type}
    (compute_id host_name : String) (c₁ c₂ resp_cell : String) (v w : α) :
    compute_node_get (fun _ _ => ⟨c₁, Outcome.ok v⟩) compute_id
      = Except.ok ((split_cell_and_item compute_id).1, v)
    ∧ compute_node_get (fun _ _ => ⟨c₁, Outcome.ok v⟩) compute_id
        = compute_node_get (fun _ _ => ⟨c₂, Outcome.ok v⟩) compute_id
    ∧ service_get_by_compute_host (fun _ _ => ⟨resp_cell, Outcome.ok w⟩)
        host_name = Except.ok (resp_cell, w) :=
  ⟨rfl, rfl, rfl⟩

end Nova
